import Mathlib

/-!
Shallow embedding of the meeting-actions synchronization core
(`notion_sync.py`, `models.py`, the `/notion/sync` endpoint of `app.py`
and `SyncStorage` of `database.py`), together with theorems checking the
specification's claims about it.

Conventions of the embedding:
* Python strings are Lean `String`s; `str.strip()`/`str.lower()` are
  modelled by `py_strip`/`py_lower` below (faithful on the ASCII
  fragment, and evaluable by the kernel).
* Python `date` values appear only via `isoformat()`, so dates are
  carried as their ISO strings.
* The Notion client is a record of query/create/update operations that
  thread an abstract remote-store state, so that "no remote call
  happened" is expressible as "the state is unchanged for every client".
* Exceptions are `Except String`; an exception message is the string.
-/

/-! ### SHA-256 (FIPS 180-4), over `Nat` with explicit mod 2^32 -/

/-- Truncate to a 32-bit word. -/
def w32 (x : Nat) : Nat := x % 4294967296

/-- Right rotation of a 32-bit word. -/
def rotr32 (n x : Nat) : Nat := w32 ((x >>> n) ||| (x <<< (32 - n)))

/-- SHA-256 round constants. -/
def shaK : List Nat :=
  [1116352408, 1899447441, 3049323471, 3921009573, 961987163, 1508970993,
   2453635748, 2870763221, 3624381080, 310598401, 607225278, 1426881987,
   1925078388, 2162078206, 2614888103, 3248222580, 3835390401, 4022224774,
   264347078, 604807628, 770255983, 1249150122, 1555081692, 1996064986,
   2554220882, 2821834349, 2952996808, 3210313671, 3336571891, 3584528711,
   113926993, 338241895, 666307205, 773529912, 1294757372, 1396182291,
   1695183700, 1986661051, 2177026350, 2456956037, 2730485921, 2820302411,
   3259730800, 3345764771, 3516065817, 3600352804, 4094571909, 275423344,
   430227734, 506948616, 659060556, 883997877, 958139571, 1322822218,
   1537002063, 1747873779, 1955562222, 2024104815, 2227730452, 2361852424,
   2428436474, 2756734187, 3204031479, 3329325298]

/-- SHA-256 working state: eight 32-bit words. -/
structure SHA8 where
  a : Nat
  b : Nat
  c : Nat
  d : Nat
  e : Nat
  f : Nat
  g : Nat
  hh : Nat
deriving Repr, DecidableEq

/-- SHA-256 initial hash value. -/
def shaH0 : SHA8 :=
  ⟨1779033703, 3144134277, 1013904242, 2773480762,
   1359893119, 2600822924, 528734635, 1541459225⟩

/-- One SHA-256 compression round. -/
def sha_round (st : SHA8) (ki wi : Nat) : SHA8 :=
  let S1 := (rotr32 6 st.e) ^^^ (rotr32 11 st.e) ^^^ (rotr32 25 st.e)
  let ch := (st.e &&& st.f) ^^^ ((4294967295 ^^^ st.e) &&& st.g)
  let temp1 := w32 (st.hh + S1 + ch + ki + wi)
  let S0 := (rotr32 2 st.a) ^^^ (rotr32 13 st.a) ^^^ (rotr32 22 st.a)
  let maj := (st.a &&& st.b) ^^^ (st.a &&& st.c) ^^^ (st.b &&& st.c)
  let temp2 := w32 (S0 + maj)
  ⟨w32 (temp1 + temp2), st.a, st.b, st.c, w32 (st.d + temp1), st.e, st.f, st.g⟩

/-- Extend the 16-word message block to the 64-word schedule (48 steps). -/
def extend_schedule : Nat → Array Nat → Array Nat
  | 0, w => w
  | n + 1, w =>
    let i := w.size
    let x15 := w.getD (i - 15) 0
    let x2 := w.getD (i - 2) 0
    let x16 := w.getD (i - 16) 0
    let x7 := w.getD (i - 7) 0
    let s0 := (rotr32 7 x15) ^^^ (rotr32 18 x15) ^^^ (x15 >>> 3)
    let s1 := (rotr32 17 x2) ^^^ (rotr32 19 x2) ^^^ (x2 >>> 10)
    extend_schedule n (w.push (w32 (x16 + s0 + x7 + s1)))

/-- Big-endian byte decomposition: `be_bytes n v` is the `n` low-order
bytes of `v`, most significant first. -/
def be_bytes : Nat → Nat → List Nat
  | 0, _ => []
  | n + 1, v => be_bytes n (v / 256) ++ [v % 256]

/-- Group bytes into big-endian 32-bit words. -/
def bytes_to_words : List Nat → List Nat
  | a :: b :: c :: d :: rest =>
      (a * 16777216 + b * 65536 + c * 256 + d) :: bytes_to_words rest
  | _ => []

/-- SHA-256 padding: append `0x80`, zeros to 56 mod 64, then the bit
length as 8 big-endian bytes. -/
def pad_message (msg : List Nat) : List Nat :=
  let L := msg.length
  let k := (119 - L % 64) % 64
  msg ++ [128] ++ List.replicate k 0 ++ be_bytes 8 (8 * L)

/-- Split a byte list into 64-byte chunks (structural recursion on a
fuel bound so the kernel can evaluate it). -/
def chunks64_go : Nat → List Nat → List (List Nat)
  | 0, _ => []
  | _ + 1, [] => []
  | fuel + 1, l => l.take 64 :: chunks64_go fuel (l.drop 64)

/-- Split a byte list into 64-byte chunks. -/
def chunks64 (l : List Nat) : List (List Nat) := chunks64_go l.length l

/-- Process one 512-bit block. -/
def sha_block (H : SHA8) (block : List Nat) : SHA8 :=
  let w := extend_schedule 48 (List.toArray (bytes_to_words block))
  let st := (List.zip shaK w.toList).foldl (fun st kw => sha_round st kw.1 kw.2) H
  ⟨w32 (H.a + st.a), w32 (H.b + st.b), w32 (H.c + st.c), w32 (H.d + st.d),
   w32 (H.e + st.e), w32 (H.f + st.f), w32 (H.g + st.g), w32 (H.hh + st.hh)⟩

/-- SHA-256 digest of a byte list, as 32 bytes. -/
def sha256_bytes (msg : List Nat) : List Nat :=
  let H := (chunks64 (pad_message msg)).foldl sha_block shaH0
  ([H.a, H.b, H.c, H.d, H.e, H.f, H.g, H.hh].map (be_bytes 4)).flatten

/-- Lowercase hex digit. -/
def hex_char (n : Nat) : Char := Char.ofNat (if n < 10 then 48 + n else 87 + n)

/-- Two-digit lowercase hex rendering of a byte. -/
def byte_hex (b : Nat) : String := String.mk [hex_char (b / 16), hex_char (b % 16)]

/-- UTF-8 encoding of one character (the standard UTF-8 scheme, as used
by Python's `str.encode()`). -/
def char_utf8_bytes (c : Char) : List Nat :=
  let v := c.toNat
  if v ≤ 0x7f then [v]
  else if v ≤ 0x7ff then
    [0xc0 ||| (v >>> 6), 0x80 ||| (v &&& 0x3f)]
  else if v ≤ 0xffff then
    [0xe0 ||| (v >>> 12), 0x80 ||| ((v >>> 6) &&& 0x3f), 0x80 ||| (v &&& 0x3f)]
  else
    [0xf0 ||| (v >>> 18), 0x80 ||| ((v >>> 12) &&& 0x3f),
     0x80 ||| ((v >>> 6) &&& 0x3f), 0x80 ||| (v &&& 0x3f)]

/-- UTF-8 bytes of a string (`s.encode()` in Python), as `Nat`s. -/
def string_bytes (s : String) : List Nat := s.data.flatMap char_utf8_bytes

/-- `hashlib.sha256(s.encode()).hexdigest()`: lowercase hex SHA-256. -/
def sha256_hex (s : String) : String :=
  String.join ((sha256_bytes (string_bytes s)).map byte_hex)

/-! ### Python string helpers (`str.strip`, `str.lower`)

Modelled directly over the character list so the kernel can evaluate
them (Lean's own `String.trim`/`String.toLower` are compiled with
well-founded recursion and do not reduce). -/

/-- The ASCII whitespace characters stripped by Python's `str.strip()`. -/
def is_py_space (c : Char) : Bool :=
  c == ' ' || c == '\t' || c == '\n' || c == '\r' || c == '\x0b' || c == '\x0c'

/-- Python `str.lower()` on one ASCII character. -/
def py_lower_char (c : Char) : Char :=
  if 'A' ≤ c && c ≤ 'Z' then Char.ofNat (c.toNat + 32) else c

/-- Python `str.lower()` (ASCII fragment). -/
def py_lower (s : String) : String := ⟨s.data.map py_lower_char⟩

/-- Python `str.strip()`: remove leading and trailing whitespace. -/
def py_strip (s : String) : String :=
  ⟨((s.data.dropWhile is_py_space).reverse.dropWhile is_py_space).reverse⟩

/-! ### Identity Deriver (`notion_sync.compute_external_id`) -/

/-- `compute_external_id`: SHA-256 hex digest of
`(meeting_url or '') + '|' + title.strip().lower()`. -/
def compute_external_id (meeting_url : Option String) (title : String) : String :=
  sha256_hex (meeting_url.getD "" ++ "|" ++ py_lower (py_strip title))

/-! ### Analysis Model (`models.py`)

Dates occur in the source only through `isoformat()`, so they are
carried as ISO strings. -/

/-- `models.Decision`. -/
structure Decision where
  title : String
  owner : Option String
  rationale : Option String
  effective_date : Option String
deriving Repr, DecidableEq

/-- `models.ActionItem`. -/
structure ActionItem where
  title : String
  assignee : Option String
  due : Option String
  priority : Option String
  notes : Option String
deriving Repr, DecidableEq

/-- `models.Analysis`. -/
structure Analysis where
  decisions : List Decision
  actions : List ActionItem
deriving Repr, DecidableEq

/-! Raw payloads as received by `sync_to_notion` (`analysis_data` dict),
and the pydantic validation performed by `Analysis(**analysis_data)`:
a required field must be present; `priority` must match `^(P0|P1|P2)$`;
no other constraint is imposed (in particular no non-emptiness check). -/

/-- Raw dict for one decision. `none` means the key is absent. -/
structure DecisionPayload where
  title : Option String
  owner : Option String
  rationale : Option String
  effective_date : Option String
deriving Repr, DecidableEq

/-- Raw dict for one action item. -/
structure ActionItemPayload where
  title : Option String
  assignee : Option String
  due : Option String
  priority : Option String
  notes : Option String
deriving Repr, DecidableEq

/-- Raw `analysis_data` dict; absent lists default to `[]`
(`default_factory=list`). -/
structure AnalysisPayload where
  decisions : Option (List DecisionPayload)
  actions : Option (List ActionItemPayload)
deriving Repr, DecidableEq

/-- Pydantic validation of one `Decision`: `title` is a required `str`
field (any string value, including the empty string, is accepted). -/
def parse_decision (p : DecisionPayload) : Except String Decision :=
  match p.title with
  | none => Except.error "validation error: Decision.title field required"
  | some t => Except.ok ⟨t, p.owner, p.rationale, p.effective_date⟩

/-- Pydantic validation of one `ActionItem`: `title` required,
`priority` must be one of P0/P1/P2 when present. -/
def parse_action_item (p : ActionItemPayload) : Except String ActionItem :=
  match p.title with
  | none => Except.error "validation error: ActionItem.title field required"
  | some t =>
    match p.priority with
    | none => Except.ok ⟨t, p.assignee, p.due, none, p.notes⟩
    | some pr =>
      if pr == "P0" || pr == "P1" || pr == "P2" then
        Except.ok ⟨t, p.assignee, p.due, some pr, p.notes⟩
      else
        Except.error "validation error: ActionItem.priority pattern mismatch"

/-- Validate every decision of the payload, stopping at the first
validation failure. -/
def parse_decisions : List DecisionPayload → Except String (List Decision)
  | [] => Except.ok []
  | p :: rest =>
    match parse_decision p with
    | Except.error e => Except.error e
    | Except.ok d =>
      match parse_decisions rest with
      | Except.error e => Except.error e
      | Except.ok ds => Except.ok (d :: ds)

/-- Validate every action item of the payload, stopping at the first
validation failure. -/
def parse_action_items : List ActionItemPayload → Except String (List ActionItem)
  | [] => Except.ok []
  | p :: rest =>
    match parse_action_item p with
    | Except.error e => Except.error e
    | Except.ok a =>
      match parse_action_items rest with
      | Except.error e => Except.error e
      | Except.ok as_ => Except.ok (a :: as_)

/-- `Analysis(**analysis_data)`: validate the whole payload. -/
def parse_analysis (p : AnalysisPayload) : Except String Analysis :=
  match parse_decisions (p.decisions.getD []) with
  | Except.error e => Except.error e
  | Except.ok ds =>
    match parse_action_items (p.actions.getD []) with
    | Except.error e => Except.error e
    | Except.ok as_ => Except.ok ⟨ds, as_⟩

/-! ### Remote Collection Client abstraction

The Notion client (`notion_client.Client`) is external to the
repository; it is modelled as a record of the three operations the sync
module uses, each threading an abstract remote-store state `σ`, and
each able to raise (`Except.error`). -/

/-- The typed property values written to the remote store. -/
inductive PropValue where
  | titleText (s : String)
  | richText (s : String)
  | selectOption (s : String)
  | dateVal (s : String)
  | urlVal (s : String)
deriving Repr, DecidableEq

/-- One remote property set: field name to value, in insertion order. -/
abbrev Properties := List (String × PropValue)

/-- Capability interface over the remote store:
`query collection field-equals-value`, `update page-id props`,
`create collection props` (returning the new page id). -/
structure Client (σ : Type) where
  query : σ → String → String → Except String (List String) × σ
  update : σ → String → Properties → Except String Unit × σ
  create : σ → String → Properties → Except String String × σ

/-- `find_existing_page`: query by External ID; first result's id, or
`none`; any query exception is swallowed and yields `none`. -/
def find_existing_page (c : Client σ) (s : σ) (database_id external_id : String) :
    Option String × σ :=
  match c.query s database_id external_id with
  | (Except.ok results, s1) => (results.head?, s1)
  | (Except.error _, s1) => (none, s1)

/-- The result dict of a successful upsert:
`{"action": ..., "page_id": ...}`. -/
structure UpsertResult where
  action : String
  page_id : String
deriving Repr, DecidableEq

/-- The enriched message raised by the `except` clause of the upsert
functions: `f"Database ID: {database_id}, Error: {str(e)}"`. -/
def wrap_error (database_id msg : String) : String :=
  "Database ID: " ++ database_id ++ ", Error: " ++ msg

/-- Python truthiness of an optional string value (`if x:` on a field
that is `None` or a `str`): present and non-empty. -/
def py_truthy : Option String → Bool
  | none => false
  | some s => !(s == "")

/-- One `if x: properties[name] = ...` step on an optional string
field: skipped when the value is absent or the empty string (both are
falsy in Python). -/
def py_str_prop (name : String) (mk : String → PropValue) : Option String → Properties
  | none => []
  | some s => if s == "" then [] else [(name, mk s)]

/-- The property set built by `upsert_action_item`: `Name` and
`External ID` always; `Status` is set unconditionally (the surrounding
`try` never fails); `Priority`/`Notes`/`Source` under the code's
truthiness guards (`if action.priority:` etc., so empty strings are
skipped); `Due` when present (a Python `date` object is always
truthy). The `assignee` field is never written. Order is dict
insertion order. -/
def action_properties (action : ActionItem) (meeting_url : Option String)
    (external_id : String) : Properties :=
  [("Name", PropValue.titleText action.title),
   ("External ID", PropValue.richText external_id),
   ("Status", PropValue.selectOption "Todo")]
  ++ py_str_prop "Priority" PropValue.selectOption action.priority
  ++ (match action.due with
      | some d => [("Due", PropValue.dateVal d)]
      | none => [])
  ++ py_str_prop "Notes" PropValue.richText action.notes
  ++ py_str_prop "Source" PropValue.urlVal meeting_url

/-- The property set built by `upsert_decision`: `Name` and
`External ID` always; `Owner`/`Rationale`/`Source` under the code's
truthiness guards (empty strings skipped); `Effective Date` when
present (a Python `date` is always truthy). -/
def decision_properties (decision : Decision) (meeting_url : Option String)
    (external_id : String) : Properties :=
  [("Name", PropValue.titleText decision.title),
   ("External ID", PropValue.richText external_id)]
  ++ py_str_prop "Owner" PropValue.richText decision.owner
  ++ py_str_prop "Rationale" PropValue.richText decision.rationale
  ++ (match decision.effective_date with
      | some d => [("Effective Date", PropValue.dateVal d)]
      | none => [])
  ++ py_str_prop "Source" PropValue.urlVal meeting_url

/-- `upsert_action_item`: derive identity, look for an existing page
(query failures swallowed), then update in place or create. -/
def upsert_action_item (c : Client σ) (s : σ) (database_id : String)
    (action : ActionItem) (meeting_url : Option String) :
    Except String UpsertResult × σ :=
  let external_id := compute_external_id meeting_url action.title
  let fe := find_existing_page c s database_id external_id
  let properties := action_properties action meeting_url external_id
  match fe.1 with
  | some pid =>
    match c.update fe.2 pid properties with
    | (Except.ok _, s2) => (Except.ok ⟨"updated", pid⟩, s2)
    | (Except.error e, s2) => (Except.error (wrap_error database_id e), s2)
  | none =>
    match c.create fe.2 database_id properties with
    | (Except.ok new_id, s2) => (Except.ok ⟨"created", new_id⟩, s2)
    | (Except.error e, s2) => (Except.error (wrap_error database_id e), s2)

/-- `upsert_decision`: same protocol against the decisions database. -/
def upsert_decision (c : Client σ) (s : σ) (database_id : String)
    (decision : Decision) (meeting_url : Option String) :
    Except String UpsertResult × σ :=
  let external_id := compute_external_id meeting_url decision.title
  let fe := find_existing_page c s database_id external_id
  let properties := decision_properties decision meeting_url external_id
  match fe.1 with
  | some pid =>
    match c.update fe.2 pid properties with
    | (Except.ok _, s2) => (Except.ok ⟨"updated", pid⟩, s2)
    | (Except.error e, s2) => (Except.error (wrap_error database_id e), s2)
  | none =>
    match c.create fe.2 database_id properties with
    | (Except.ok new_id, s2) => (Except.ok ⟨"created", new_id⟩, s2)
    | (Except.error e, s2) => (Except.error (wrap_error database_id e), s2)

/-! ### Sync Orchestrator (`notion_sync.sync_to_notion`) -/

/-- A single-quote character, for the error-string format. -/
def squo : String := String.singleton (Char.ofNat 39)

/-- The aggregate returned by `sync_to_notion`
(the created / updated counters and the error list). -/
structure SyncResult where
  created_actions : Nat
  created_decisions : Nat
  updated_actions : Nat
  updated_decisions : Nat
  errors : List String
deriving Repr, DecidableEq

/-- The initial results dict: all counters zero, no errors. -/
def zeroResult : SyncResult := ⟨0, 0, 0, 0, []⟩

/-- Environment variables read by the sync module. -/
structure Env where
  notion_token : Option String
  notion_backlog_db : Option String
  notion_decisions_db : Option String
deriving Repr, DecidableEq

/-- Python falsiness of an environment lookup: absent or empty. -/
def env_missing : Option String → Bool
  | none => true
  | some v => v == ""

/-- `init_notion`: requires the API token; client construction itself
performs no remote call. -/
def init_notion (env : Env) : Except String Unit :=
  if env_missing env.notion_token then
    Except.error "NOTION_TOKEN environment variable is required"
  else
    Except.ok ()

/-- The per-item error entry, as formatted by the orchestrator. -/
def item_error (kind title msg : String) : String :=
  kind ++ " " ++ squo ++ title ++ squo ++ ": " ++ msg

/-- The loop over `analysis.actions` in `sync_to_notion`. -/
def sync_actions (c : Client σ) (db : String) (mu : Option String) :
    List ActionItem → σ → SyncResult → SyncResult × σ
  | [], s, r => (r, s)
  | a :: rest, s, r =>
    match upsert_action_item c s db a mu with
    | (Except.ok u, s1) =>
      if u.action == "created" then
        sync_actions c db mu rest s1 { r with created_actions := r.created_actions + 1 }
      else
        sync_actions c db mu rest s1 { r with updated_actions := r.updated_actions + 1 }
    | (Except.error e, s1) =>
      sync_actions c db mu rest s1 { r with errors := r.errors ++ [item_error "Action" a.title e] }

/-- The loop over `analysis.decisions` in `sync_to_notion`. -/
def sync_decisions (c : Client σ) (db : String) (mu : Option String) :
    List Decision → σ → SyncResult → SyncResult × σ
  | [], s, r => (r, s)
  | d :: rest, s, r =>
    match upsert_decision c s db d mu with
    | (Except.ok u, s1) =>
      if u.action == "created" then
        sync_decisions c db mu rest s1 { r with created_decisions := r.created_decisions + 1 }
      else
        sync_decisions c db mu rest s1 { r with updated_decisions := r.updated_decisions + 1 }
    | (Except.error e, s1) =>
      sync_decisions c db mu rest s1 { r with errors := r.errors ++ [item_error "Decision" d.title e] }

/-- `sync_to_notion`: init client, check the two collection ids, parse
the payload, then sync all actions and afterwards all decisions.
Failures before the loops propagate as exceptions and touch no remote
state. -/
def sync_to_notion (env : Env) (c : Client σ) (s : σ)
    (analysis_data : AnalysisPayload) (meeting_url : Option String) :
    Except String SyncResult × σ :=
  match init_notion env with
  | Except.error e => (Except.error e, s)
  | Except.ok _ =>
    if env_missing env.notion_backlog_db || env_missing env.notion_decisions_db then
      (Except.error "NOTION_BACKLOG_DB and NOTION_DECISIONS_DB environment variables are required", s)
    else
      match parse_analysis analysis_data with
      | Except.error e => (Except.error e, s)
      | Except.ok analysis =>
        let backlog_db := env.notion_backlog_db.getD ""
        let decisions_db := env.notion_decisions_db.getD ""
        let ra := sync_actions c backlog_db meeting_url analysis.actions s zeroResult
        let rd := sync_decisions c decisions_db meeting_url analysis.decisions ra.2 ra.1
        (Except.ok rd.1, rd.2)

/-- Modelled from the spec (§8, order independence): the same
orchestrator with the two loops exchanged — all decisions processed
before all actions. -/
def sync_to_notion_decisions_first (env : Env) (c : Client σ) (s : σ)
    (analysis_data : AnalysisPayload) (meeting_url : Option String) :
    Except String SyncResult × σ :=
  match init_notion env with
  | Except.error e => (Except.error e, s)
  | Except.ok _ =>
    if env_missing env.notion_backlog_db || env_missing env.notion_decisions_db then
      (Except.error "NOTION_BACKLOG_DB and NOTION_DECISIONS_DB environment variables are required", s)
    else
      match parse_analysis analysis_data with
      | Except.error e => (Except.error e, s)
      | Except.ok analysis =>
        let backlog_db := env.notion_backlog_db.getD ""
        let decisions_db := env.notion_decisions_db.getD ""
        let rd := sync_decisions c decisions_db meeting_url analysis.decisions s zeroResult
        let ra := sync_actions c backlog_db meeting_url analysis.actions rd.2 rd.1
        (Except.ok ra.1, ra.2)

/-! ### A concrete remote store (the Remote Collection of the spec)

The remote store is an external collaborator; this executable model
implements exactly the interface the sync module relies on: query
filters records of a collection by their `External ID` property,
create appends a fresh record, update overwrites a record's
properties. -/

/-- One remote record. -/
structure NPage where
  pid : String
  database_id : String
  props : Properties
deriving Repr, DecidableEq

/-- The remote store: records plus a fresh-id counter. -/
structure NStore where
  pages : List NPage
  next_id : Nat
deriving Repr, DecidableEq

/-- The `External ID` property of a property set, when present. -/
def props_external_id (props : Properties) : Option String :=
  match props.lookup "External ID" with
  | some (PropValue.richText s) => some s
  | _ => none

/-- Does a record match the identity query (External ID equals `eid`)
in collection `db`? -/
def page_matches (db eid : String) (p : NPage) : Bool :=
  p.database_id == db && props_external_id p.props == some eid

/-- The store-backed client: a faithful implementation of the remote
interface with no failures. -/
def store_client : Client NStore where
  query := fun s db eid =>
    (Except.ok ((s.pages.filter (page_matches db eid)).map NPage.pid), s)
  update := fun s pid props =>
    (Except.ok (),
     { s with pages := s.pages.map (fun p => if p.pid == pid then { p with props := props } else p) })
  create := fun s db props =>
    let pid := "page-" ++ toString s.next_id
    (Except.ok pid, { pages := s.pages ++ [⟨pid, db, props⟩], next_id := s.next_id + 1 })

/-! ### Order-insensitive remote behaviors -/

/-- A remote behavior that does not depend on call order: each
operation is a pure function of its arguments. -/
structure PureClient where
  query : String → String → Except String (List String)
  update : String → Properties → Except String Unit
  create : String → Properties → Except String String

/-- Run a `PureClient` as a (stateless) `Client`. -/
def PureClient.lift (c : PureClient) : Client Unit where
  query := fun s db eid => (c.query db eid, s)
  update := fun s pid props => (c.update pid props, s)
  create := fun s db props => (c.create db props, s)

/-! ### The sync endpoint with the Sync Result Cache -/

/-- The request body of the sync endpoint. -/
structure NotionSyncRequest where
  analysis : AnalysisPayload
  analysis_id : Option String
  meeting_url : Option String

/-- The cache (`SyncStorage.get_sync_status`): stored sync result by
analysis id; `none` covers both "no row" and a storage read error. -/
abbrev SyncCache := String → Option SyncResult

/-- `SyncStorage.save_sync_result`: record the result for the id. -/
def save_sync_result (cache : SyncCache) (aid : String) (r : SyncResult) : SyncCache :=
  fun k => if k == aid then some r else cache k

/-- The sync-then-save tail of the endpoint: run `sync_to_notion`; on
success with an analysis id, persist the result. -/
def run_sync_and_save (env : Env) (c : Client σ) (cache : SyncCache) (s : σ)
    (req : NotionSyncRequest) : (Except String SyncResult × σ) × SyncCache :=
  let out := sync_to_notion env c s req.analysis req.meeting_url
  match out.1, req.analysis_id with
  | Except.ok r, some aid => (out, save_sync_result cache aid r)
  | _, _ => (out, cache)

/-- `app.sync_notion`: if a stored result for the analysis id exists
and has no errors, return it and skip the orchestrator; otherwise run
the sync (and save the result on success). -/
def sync_notion (env : Env) (c : Client σ) (cache : SyncCache) (s : σ)
    (req : NotionSyncRequest) : (Except String SyncResult × σ) × SyncCache :=
  match req.analysis_id with
  | some aid =>
    match cache aid with
    | some stored =>
      if stored.errors.isEmpty then ((Except.ok stored, s), cache)
      else run_sync_and_save env c cache s req
    | none => run_sync_and_save env c cache s req
  | none => run_sync_and_save env c cache s req

/-! ### Fixtures and helpers for the verification theorems -/

/-- A remote behavior that answers every query with "no matches" and
accepts every write. -/
def pure_trivial : PureClient where
  query := fun _ _ => Except.ok []
  update := fun _ _ => Except.ok ()
  create := fun _ _ => Except.ok "p"

/-- The stateless trivial client. -/
def trivial_client : Client Unit := pure_trivial.lift

/-- A client whose query always fails but whose writes succeed, with a
call-counting state. -/
def failing_query_client : Client Nat where
  query := fun s _ _ => (Except.error "boom", s + 1)
  update := fun s _ _ => (Except.ok (), s + 100)
  create := fun s _ _ => (Except.ok "pX", s + 10)

/-- A fully configured environment. -/
def envOK : Env := ⟨some "tok", some "bdb", some "ddb"⟩

/-- A small well-formed payload: one decision and one action. -/
def payload1 : AnalysisPayload :=
  ⟨some [⟨some "Ship v2", some "Alice", none, some "2025-01-01"⟩],
   some [⟨some "Fix bug", none, none, some "P1", none⟩]⟩

/-- A cache holding one error-free stored result for id `a1`. -/
def cache1 : SyncCache := fun k => if k == "a1" then some ⟨1, 0, 0, 0, []⟩ else none

/-- Pointwise sum of two sync results (errors concatenated). -/
def combine (r1 r2 : SyncResult) : SyncResult :=
  ⟨r1.created_actions + r2.created_actions, r1.created_decisions + r2.created_decisions,
   r1.updated_actions + r2.updated_actions, r1.updated_decisions + r2.updated_decisions,
   r1.errors ++ r2.errors⟩

/-! ### Claim theorems -/

/-- C1: `compute_external_id` is the SHA-256 hex digest of
`(source_reference or empty) + "|" + lowercase(trim(title))`; it is
deterministic (equal inputs give the identical digest), total (a Lean
function on strings), and titles equal after trim+lowercase give the
identical digest for the same source reference. -/
theorem c1_compute_external_id_spec :
    (∀ (mu : Option String) (t : String),
        compute_external_id mu t =
          sha256_hex (mu.getD "" ++ "|" ++ py_lower (py_strip t))) ∧
    (∀ (mu1 mu2 : Option String) (t1 t2 : String),
        mu1 = mu2 → t1 = t2 →
        compute_external_id mu1 t1 = compute_external_id mu2 t2) ∧
    (∀ (mu : Option String) (t1 t2 : String),
        py_lower (py_strip t1) = py_lower (py_strip t2) →
        compute_external_id mu t1 = compute_external_id mu t2) := by
  refine ⟨fun mu t => rfl, fun mu1 mu2 t1 t2 h1 h2 => by rw [h1, h2], fun mu t1 t2 h => ?_⟩
  unfold compute_external_id
  rw [h]

/-- C1 witness: the two scenario titles normalize identically, hence
collide to the identical digest. -/
theorem c1_compute_external_id_spec_witness :
    py_lower (py_strip "  Ship V2  ") = py_lower (py_strip "ship v2") ∧
    compute_external_id (some "https://meet/123") "  Ship V2  " =
      compute_external_id (some "https://meet/123") "ship v2" :=
  ⟨by decide,
   c1_compute_external_id_spec.2.2 (some "https://meet/123") "  Ship V2  " "ship v2" (by decide)⟩

/-- C10: the identity encoding is not injective on the pair: a `none`
source reference and the empty-string source reference agree on every
title, and `("x|a", "b")` collides with `("x", "a|b")` because both
concatenate to the pre-hash string `"x|a|b"`. -/
theorem c10_identity_not_injective :
    (∀ t : String, compute_external_id none t = compute_external_id (some "") t) ∧
    compute_external_id (some "x|a") "b" = compute_external_id (some "x") "a|b" := by
  refine ⟨fun t => rfl, ?_⟩
  show sha256_hex ((some "x|a").getD "" ++ "|" ++ py_lower (py_strip "b")) =
    sha256_hex ((some "x").getD "" ++ "|" ++ py_lower (py_strip "a|b"))
  exact congrArg sha256_hex (by decide)

/-- C4: a failing identity query is swallowed: `find_existing_page`
returns `none` and the upsert proceeds down the create path (for action
items and decisions alike); the query error never surfaces, and if the
subsequent create succeeds the whole upsert succeeds. -/
theorem c4_query_failure_fail_open :
    (∀ {σ : Type} (c : Client σ) (s s1 : σ) (db : String) (a : ActionItem)
       (mu : Option String) (e : String),
       c.query s db (compute_external_id mu a.title) = (Except.error e, s1) →
       find_existing_page c s db (compute_external_id mu a.title) = (none, s1) ∧
       upsert_action_item c s db a mu =
         (match c.create s1 db (action_properties a mu (compute_external_id mu a.title)) with
          | (Except.ok pid, s2) => (Except.ok ⟨"created", pid⟩, s2)
          | (Except.error e2, s2) => (Except.error (wrap_error db e2), s2))) ∧
    (∀ {σ : Type} (c : Client σ) (s s1 : σ) (db : String) (d : Decision)
       (mu : Option String) (e : String),
       c.query s db (compute_external_id mu d.title) = (Except.error e, s1) →
       find_existing_page c s db (compute_external_id mu d.title) = (none, s1) ∧
       upsert_decision c s db d mu =
         (match c.create s1 db (decision_properties d mu (compute_external_id mu d.title)) with
          | (Except.ok pid, s2) => (Except.ok ⟨"created", pid⟩, s2)
          | (Except.error e2, s2) => (Except.error (wrap_error db e2), s2))) := by
  constructor
  · intro σ c s s1 db a mu e hq
    have hf : find_existing_page c s db (compute_external_id mu a.title) = (none, s1) := by
      unfold find_existing_page
      rw [hq]
    refine ⟨hf, ?_⟩
    unfold upsert_action_item
    simp only [hf]
  · intro σ c s s1 db d mu e hq
    have hf : find_existing_page c s db (compute_external_id mu d.title) = (none, s1) := by
      unfold find_existing_page
      rw [hq]
    refine ⟨hf, ?_⟩
    unfold upsert_decision
    simp only [hf]

/-- C4 witness: with a client whose query fails and whose create
succeeds, the upsert reports `created` and does not fail. -/
theorem c4_query_failure_fail_open_witness :
    failing_query_client.query 0 "db" (compute_external_id none "t") = (Except.error "boom", 1) ∧
    upsert_action_item failing_query_client 0 "db" ⟨"t", none, none, none, none⟩ none =
      (Except.ok ⟨"created", "pX"⟩, 11) := by
  have h := c4_query_failure_fail_open.1 failing_query_client 0 1 "db"
    ⟨"t", none, none, none, none⟩ none "boom" rfl
  exact ⟨rfl, by rw [h.2]; rfl⟩

/-- C6: with either collection identifier missing (or empty, which the
source treats as missing too), `sync_to_notion` raises a configuration
error before any remote call — the returned state equals the input
state for every client — and returns no counts and no per-item error
list. -/
theorem c6_missing_config_fails_fast :
    ∀ {σ : Type} (c : Client σ) (env : Env) (s : σ)
      (payload : AnalysisPayload) (mu : Option String),
      env_missing env.notion_backlog_db = true ∨ env_missing env.notion_decisions_db = true →
      ∃ e, sync_to_notion env c s payload mu = (Except.error e, s) ∧
        (e = "NOTION_TOKEN environment variable is required" ∨
         e = "NOTION_BACKLOG_DB and NOTION_DECISIONS_DB environment variables are required") := by
  intro σ c env s payload mu h
  unfold sync_to_notion init_notion
  by_cases ht : env_missing env.notion_token
  · exact ⟨"NOTION_TOKEN environment variable is required", by simp [ht], Or.inl rfl⟩
  · have hdb : (env_missing env.notion_backlog_db || env_missing env.notion_decisions_db) = true := by
      rcases h with h | h <;> simp [h]
    exact ⟨"NOTION_BACKLOG_DB and NOTION_DECISIONS_DB environment variables are required",
      by simp [ht, hdb], Or.inr rfl⟩

/-- C6 witness: token present, backlog id absent: the sync fails with
the configuration error and leaves the remote state untouched. -/
theorem c6_missing_config_fails_fast_witness :
    (env_missing (Env.mk (some "tok") none (some "ddb")).notion_backlog_db = true ∨
     env_missing (Env.mk (some "tok") none (some "ddb")).notion_decisions_db = true) ∧
    ∃ e, sync_to_notion ⟨some "tok", none, some "ddb"⟩ failing_query_client 0 payload1 none =
        (Except.error e, 0) ∧
      (e = "NOTION_TOKEN environment variable is required" ∨
       e = "NOTION_BACKLOG_DB and NOTION_DECISIONS_DB environment variables are required") :=
  ⟨Or.inl rfl,
   c6_missing_config_fails_fast failing_query_client ⟨some "tok", none, some "ddb"⟩ 0
     payload1 none (Or.inl rfl)⟩

/-- C5: with a stored error-free result for the request's analysis id,
the endpoint returns the stored result unchanged, touches no remote
state (for every client) and writes nothing to the cache; with a stored
result that has errors, the full sync path runs. -/
theorem c5_cache_short_circuit :
    ∀ {σ : Type} (env : Env) (c : Client σ) (cache : SyncCache) (s : σ)
      (req : NotionSyncRequest) (aid : String) (stored : SyncResult),
      req.analysis_id = some aid → cache aid = some stored →
      (stored.errors = [] → sync_notion env c cache s req = ((Except.ok stored, s), cache)) ∧
      (stored.errors ≠ [] → sync_notion env c cache s req = run_sync_and_save env c cache s req) := by
  intro σ env c cache s req aid stored hid hc
  obtain ⟨pa, raid, rmu⟩ := req
  replace hid : raid = some aid := hid
  subst hid
  have hred : sync_notion env c cache s ⟨pa, some aid, rmu⟩ =
      (match cache aid with
       | some stored =>
         if stored.errors.isEmpty then ((Except.ok stored, s), cache)
         else run_sync_and_save env c cache s ⟨pa, some aid, rmu⟩
       | none => run_sync_and_save env c cache s ⟨pa, some aid, rmu⟩) := rfl
  rw [hred, hc]
  constructor
  · intro he
    simp [he]
  · intro he
    rcases h : stored.errors with _ | ⟨x, xs⟩
    · exact absurd h he
    · simp [h]

/-- C5 witness: a cache hit with an empty error list is returned as-is,
with the remote state and the cache untouched. -/
theorem c5_cache_short_circuit_witness :
    ((⟨payload1, some "a1", none⟩ : NotionSyncRequest).analysis_id = some "a1") ∧
    cache1 "a1" = some ⟨1, 0, 0, 0, []⟩ ∧
    ((⟨1, 0, 0, 0, []⟩ : SyncResult).errors = []) ∧
    sync_notion envOK failing_query_client cache1 0 ⟨payload1, some "a1", none⟩ =
      ((Except.ok ⟨1, 0, 0, 0, []⟩, 0), cache1) :=
  ⟨rfl, rfl, rfl,
   (c5_cache_short_circuit envOK failing_query_client cache1 0
     ⟨payload1, some "a1", none⟩ "a1" ⟨1, 0, 0, 0, []⟩ rfl rfl).1 rfl⟩

/-- C7 counterexample: for an action item with no optional fields and
no source reference, the property set contains the key `Status`, which
is neither of the required fields — so the claim "no property other
than the required fields and the item's present optional fields is
included" is false. -/
theorem c7_counterexample_status_always_included :
    (action_properties ⟨"Fix bug", none, none, none, none⟩ none "eid").map Prod.fst =
      ["Name", "External ID", "Status"] ∧
    ¬ ("Status" = "Name" ∨ "Status" = "External ID") := by decide

/-- The key contributed by one optional-string property write: the
field name exactly when the value is truthy (present and non-empty). -/
theorem py_str_prop_keys (name : String) (mk : String → PropValue) (o : Option String) :
    (py_str_prop name mk o).map Prod.fst = if py_truthy o then [name] else [] := by
  cases o with
  | none => rfl
  | some s =>
    by_cases hs : s == ""
    · simp [py_str_prop, py_truthy, hs]
    · simp [py_str_prop, py_truthy, hs]

/-- C7 (amended): the property set always contains the required
`Name` (the item's title) and `External ID` (the derived identity);
for action items it additionally always contains a constant `Status`
property and never an `Assignee` property (the code does not write the
assignee field); each optional string field is included iff it is
truthy in Python's sense (present and non-empty), each optional date
field iff present, and `Source` iff a truthy source reference was
given — and nothing else. -/
theorem c7_property_set_exact :
    ∀ (mu : Option String) (eid : String),
      (∀ a : ActionItem,
        ("Name", PropValue.titleText a.title) ∈ action_properties a mu eid ∧
        ("External ID", PropValue.richText eid) ∈ action_properties a mu eid ∧
        (action_properties a mu eid).map Prod.fst =
          ["Name", "External ID", "Status"]
            ++ (if py_truthy a.priority then ["Priority"] else [])
            ++ (if a.due.isSome then ["Due"] else [])
            ++ (if py_truthy a.notes then ["Notes"] else [])
            ++ (if py_truthy mu then ["Source"] else []) ∧
        "Assignee" ∉ (action_properties a mu eid).map Prod.fst) ∧
      (∀ d : Decision,
        ("Name", PropValue.titleText d.title) ∈ decision_properties d mu eid ∧
        ("External ID", PropValue.richText eid) ∈ decision_properties d mu eid ∧
        (decision_properties d mu eid).map Prod.fst =
          ["Name", "External ID"]
            ++ (if py_truthy d.owner then ["Owner"] else [])
            ++ (if py_truthy d.rationale then ["Rationale"] else [])
            ++ (if d.effective_date.isSome then ["Effective Date"] else [])
            ++ (if py_truthy mu then ["Source"] else [])) := by
  intro mu eid
  constructor
  · rintro ⟨t, asg, due, pr, notes⟩
    have hkeys : (action_properties ⟨t, asg, due, pr, notes⟩ mu eid).map Prod.fst =
        ["Name", "External ID", "Status"]
          ++ (if py_truthy pr then ["Priority"] else [])
          ++ (if due.isSome then ["Due"] else [])
          ++ (if py_truthy notes then ["Notes"] else [])
          ++ (if py_truthy mu then ["Source"] else []) := by
      cases due <;> simp [action_properties, py_str_prop_keys]
    refine ⟨by simp [action_properties], by simp [action_properties], hkeys, ?_⟩
    rw [hkeys]
    split_ifs <;> simp
  · rintro ⟨t, ow, ra, ed⟩
    have hkeys : (decision_properties ⟨t, ow, ra, ed⟩ mu eid).map Prod.fst =
        ["Name", "External ID"]
          ++ (if py_truthy ow then ["Owner"] else [])
          ++ (if py_truthy ra then ["Rationale"] else [])
          ++ (if ed.isSome then ["Effective Date"] else [])
          ++ (if py_truthy mu then ["Source"] else []) := by
      cases ed <;> simp [decision_properties, py_str_prop_keys]
    exact ⟨by simp [decision_properties], by simp [decision_properties], hkeys⟩

/-- C9 counterexample: a payload whose only decision has the empty
string as title parses successfully — pydantic's `title: str` accepts
the empty string, so no validation error is raised. -/
theorem c9_counterexample_empty_title_accepted :
    parse_analysis ⟨some [⟨some "", none, none, none⟩], none⟩ =
      Except.ok ⟨[⟨"", none, none, none⟩], []⟩ := rfl

/-- C9 (amended): a Decision's title is required but not checked for
non-emptiness: validation of a decision succeeds iff the title key is
present (any string, the empty string included); and when a decision
payload lacks its title, the whole sync fails before any remote call —
the state is unchanged for every client. -/
theorem c9_title_required_not_nonempty :
    (∀ p : DecisionPayload, (∃ d, parse_decision p = Except.ok d) ↔ p.title ≠ none) ∧
    (∀ {σ : Type} (c : Client σ) (env : Env) (s : σ) (mu : Option String)
       (pre post : List DecisionPayload) (pd : DecisionPayload)
       (acts : Option (List ActionItemPayload)),
       pd.title = none →
       ∃ e, sync_to_notion env c s ⟨some (pre ++ pd :: post), acts⟩ mu =
          (Except.error e, s)) := by
  constructor
  · intro p
    constructor
    · rintro ⟨d, hd⟩ ht
      unfold parse_decision at hd
      rw [ht] at hd
      simp at hd
    · intro ht
      rcases hp : p.title with _ | t
      · exact absurd hp ht
      · exact ⟨⟨t, p.owner, p.rationale, p.effective_date⟩, by simp [parse_decision, hp]⟩
  · intro σ c env s mu pre post pd acts ht
    have hpd : ∃ e, parse_decisions (pre ++ pd :: post) = Except.error e := by
      induction pre with
      | nil =>
        refine ⟨"validation error: Decision.title field required", ?_⟩
        simp only [List.nil_append, parse_decisions, parse_decision, ht]
      | cons q qs ih =>
        rcases ih with ⟨e, he⟩
        rcases hq : parse_decision q with eq | dq
        · exact ⟨eq, by simp only [List.cons_append, parse_decisions, hq]⟩
        · exact ⟨e, by simp only [List.cons_append, parse_decisions, hq, List.append_eq, he]⟩
    rcases hpd with ⟨e, he⟩
    unfold sync_to_notion init_notion
    by_cases htk : env_missing env.notion_token
    · exact ⟨"NOTION_TOKEN environment variable is required", by simp [htk]⟩
    · by_cases hdb : (env_missing env.notion_backlog_db || env_missing env.notion_decisions_db) = true
      · exact ⟨"NOTION_BACKLOG_DB and NOTION_DECISIONS_DB environment variables are required",
          by simp [htk, hdb]⟩
      · refine ⟨e, ?_⟩
        have hpa : parse_analysis ⟨some (pre ++ pd :: post), acts⟩ = Except.error e := by
          unfold parse_analysis
          simp only [Option.getD_some, he]
        simp [htk, hdb, hpa]

/-- C9 witness: a payload whose decision lacks the title key makes the
sync fail with a validation error while leaving the remote state
untouched. -/
theorem c9_title_required_not_nonempty_witness :
    ((⟨none, none, none, none⟩ : DecisionPayload).title = none) ∧
    ∃ e, sync_to_notion envOK failing_query_client 0
        ⟨some ([] ++ (⟨none, none, none, none⟩ : DecisionPayload) :: []), none⟩ none =
      (Except.error e, 0) :=
  ⟨rfl,
   c9_title_required_not_nonempty.2 failing_query_client envOK 0 none [] []
     ⟨none, none, none, none⟩ none rfl⟩

/-! #### Store-client reduction lemmas (for C2) -/

/-- Against the store client, the identity lookup returns the id of the
first record matching the derived identity. -/
theorem find_existing_page_store (s : NStore) (db eid : String) :
    find_existing_page store_client s db eid =
      (((s.pages.filter (page_matches db eid)).map NPage.pid).head?, s) := rfl

/-- The decision property set always carries the external id under the
`External ID` key. -/
theorem props_external_id_decision (d : Decision) (mu : Option String) (eid : String) :
    props_external_id (decision_properties d mu eid) = some eid := rfl

/-- The action property set always carries the external id under the
`External ID` key. -/
theorem props_external_id_action (a : ActionItem) (mu : Option String) (eid : String) :
    props_external_id (action_properties a mu eid) = some eid := rfl

/-- Upserting a decision with no identity match creates a fresh record
carrying the decision's property set. -/
theorem upsert_decision_store_create (s : NStore) (db : String) (d : Decision)
    (mu : Option String)
    (h : s.pages.filter (page_matches db (compute_external_id mu d.title)) = []) :
    upsert_decision store_client s db d mu =
      (Except.ok ⟨"created", "page-" ++ toString s.next_id⟩,
       ⟨s.pages ++ [⟨"page-" ++ toString s.next_id, db,
          decision_properties d mu (compute_external_id mu d.title)⟩], s.next_id + 1⟩) := by
  have hf : find_existing_page store_client s db (compute_external_id mu d.title) = (none, s) := by
    rw [find_existing_page_store, h]
    rfl
  unfold upsert_decision
  simp only [hf]
  rfl

/-- Upserting a decision whose identity matches an existing record
updates that record in place and reports its id. -/
theorem upsert_decision_store_update (s : NStore) (db : String) (d : Decision)
    (mu : Option String) (p : NPage) (rest : List NPage)
    (h : s.pages.filter (page_matches db (compute_external_id mu d.title)) = p :: rest) :
    upsert_decision store_client s db d mu =
      (Except.ok ⟨"updated", p.pid⟩,
       ⟨s.pages.map (fun q => if q.pid == p.pid then
           { q with props := decision_properties d mu (compute_external_id mu d.title) } else q),
        s.next_id⟩) := by
  have hf : find_existing_page store_client s db (compute_external_id mu d.title) =
      (some p.pid, s) := by
    rw [find_existing_page_store, h]
    rfl
  unfold upsert_decision
  simp only [hf]
  rfl

/-- Upserting an action item with no identity match creates a fresh
record. -/
theorem upsert_action_store_create (s : NStore) (db : String) (a : ActionItem)
    (mu : Option String)
    (h : s.pages.filter (page_matches db (compute_external_id mu a.title)) = []) :
    upsert_action_item store_client s db a mu =
      (Except.ok ⟨"created", "page-" ++ toString s.next_id⟩,
       ⟨s.pages ++ [⟨"page-" ++ toString s.next_id, db,
          action_properties a mu (compute_external_id mu a.title)⟩], s.next_id + 1⟩) := by
  have hf : find_existing_page store_client s db (compute_external_id mu a.title) = (none, s) := by
    rw [find_existing_page_store, h]
    rfl
  unfold upsert_action_item
  simp only [hf]
  rfl

/-- Upserting an action item whose identity matches an existing record
updates it in place. -/
theorem upsert_action_store_update (s : NStore) (db : String) (a : ActionItem)
    (mu : Option String) (p : NPage) (rest : List NPage)
    (h : s.pages.filter (page_matches db (compute_external_id mu a.title)) = p :: rest) :
    upsert_action_item store_client s db a mu =
      (Except.ok ⟨"updated", p.pid⟩,
       ⟨s.pages.map (fun q => if q.pid == p.pid then
           { q with props := action_properties a mu (compute_external_id mu a.title) } else q),
        s.next_id⟩) := by
  have hf : find_existing_page store_client s db (compute_external_id mu a.title) =
      (some p.pid, s) := by
    rw [find_existing_page_store, h]
    rfl
  unfold upsert_action_item
  simp only [hf]
  rfl

/-- C2: against the store-backed remote, an upsert (of an action item
or a decision) reports `updated` iff a record with the derived External
ID exists in the target collection, and `created` otherwise; and in the
scenario where two decisions' titles normalize identically and no prior
record matches, the first upsert reports `created` and the second one,
run on the resulting store, reports `updated` for the same record. -/
theorem c2_upsert_update_iff_found (db : String) (mu : Option String)
    (s : NStore) (d1 d2 : Decision)
    (hnorm : py_lower (py_strip d1.title) = py_lower (py_strip d2.title))
    (hempty : s.pages.filter (page_matches db (compute_external_id mu d1.title)) = []) :
    (∀ (t : NStore) (a : ActionItem), ∃ r,
        (upsert_action_item store_client t db a mu).1 = Except.ok r ∧
        (r.action = "updated" ↔
          t.pages.filter (page_matches db (compute_external_id mu a.title)) ≠ [])) ∧
    (∀ (t : NStore) (d : Decision), ∃ r,
        (upsert_decision store_client t db d mu).1 = Except.ok r ∧
        (r.action = "updated" ↔
          t.pages.filter (page_matches db (compute_external_id mu d.title)) ≠ [])) ∧
    (upsert_decision store_client s db d1 mu).1 =
        Except.ok ⟨"created", "page-" ++ toString s.next_id⟩ ∧
    (upsert_decision store_client (upsert_decision store_client s db d1 mu).2 db d2 mu).1 =
        Except.ok ⟨"updated", "page-" ++ toString s.next_id⟩ := by
  have key : compute_external_id mu d2.title = compute_external_id mu d1.title := by
    unfold compute_external_id
    rw [hnorm]
  refine ⟨?_, ?_, ?_, ?_⟩
  · intro t a
    rcases hF : t.pages.filter (page_matches db (compute_external_id mu a.title)) with _ | ⟨p, rest⟩
    · refine ⟨⟨"created", "page-" ++ toString t.next_id⟩, ?_, ?_⟩
      · rw [upsert_action_store_create t db a mu hF]
      · simp
    · refine ⟨⟨"updated", p.pid⟩, ?_, ?_⟩
      · rw [upsert_action_store_update t db a mu p rest hF]
      · simp
  · intro t d
    rcases hF : t.pages.filter (page_matches db (compute_external_id mu d.title)) with _ | ⟨p, rest⟩
    · refine ⟨⟨"created", "page-" ++ toString t.next_id⟩, ?_, ?_⟩
      · rw [upsert_decision_store_create t db d mu hF]
      · simp
    · refine ⟨⟨"updated", p.pid⟩, ?_, ?_⟩
      · rw [upsert_decision_store_update t db d mu p rest hF]
      · simp
  · rw [upsert_decision_store_create s db d1 mu hempty]
  · rw [upsert_decision_store_create s db d1 mu hempty]
    have hm : page_matches db (compute_external_id mu d1.title)
        (⟨"page-" ++ toString s.next_id, db,
          decision_properties d1 mu (compute_external_id mu d1.title)⟩ : NPage) = true := by
      unfold page_matches
      simp [props_external_id_decision]
    have hfilter :
        (s.pages ++ [(⟨"page-" ++ toString s.next_id, db,
            decision_properties d1 mu (compute_external_id mu d1.title)⟩ : NPage)]).filter
          (page_matches db (compute_external_id mu d2.title)) =
        (⟨"page-" ++ toString s.next_id, db,
          decision_properties d1 mu (compute_external_id mu d1.title)⟩ : NPage) :: [] := by
      rw [key, List.filter_append, hempty, List.nil_append]
      simp [List.filter, hm]
    rw [upsert_decision_store_update _ db d2 mu _ [] hfilter]

/-- C2 witness: on the empty store, the decision titled
`"  Ship V2  "` is created as `page-0`; re-upserting as `"ship v2"`
with the same source reference reports `updated` on the same record. -/
theorem c2_upsert_update_iff_found_witness :
    py_lower (py_strip "  Ship V2  ") = py_lower (py_strip "ship v2") ∧
    ((⟨[], 0⟩ : NStore).pages.filter
      (page_matches "db" (compute_external_id (some "m") "  Ship V2  ")) = []) ∧
    (upsert_decision store_client ⟨[], 0⟩ "db" ⟨"  Ship V2  ", none, none, none⟩ (some "m")).1 =
      Except.ok ⟨"created", "page-" ++ toString (0 : Nat)⟩ ∧
    (upsert_decision store_client
        (upsert_decision store_client ⟨[], 0⟩ "db" ⟨"  Ship V2  ", none, none, none⟩ (some "m")).2
        "db" ⟨"ship v2", none, none, none⟩ (some "m")).1 =
      Except.ok ⟨"updated", "page-" ++ toString (0 : Nat)⟩ := by
  have h := c2_upsert_update_iff_found "db" (some "m") ⟨[], 0⟩
    ⟨"  Ship V2  ", none, none, none⟩ ⟨"ship v2", none, none, none⟩ (by decide) rfl
  exact ⟨by decide, rfl, h.2.2.1, h.2.2.2⟩

/-! #### Loop bookkeeping lemmas (for C3) -/

/-- One step of the action loop. -/
theorem sync_actions_cons {σ : Type} (c : Client σ) (db : String) (mu : Option String)
    (a : ActionItem) (rest : List ActionItem) (s : σ) (r : SyncResult) :
    sync_actions c db mu (a :: rest) s r =
      (match upsert_action_item c s db a mu with
       | (Except.ok u, s1) =>
         if u.action == "created" then
           sync_actions c db mu rest s1 { r with created_actions := r.created_actions + 1 }
         else
           sync_actions c db mu rest s1 { r with updated_actions := r.updated_actions + 1 }
       | (Except.error e, s1) =>
         sync_actions c db mu rest s1
           { r with errors := r.errors ++ [item_error "Action" a.title e] }) := rfl

/-- One step of the decision loop. -/
theorem sync_decisions_cons {σ : Type} (c : Client σ) (db : String) (mu : Option String)
    (d : Decision) (rest : List Decision) (s : σ) (r : SyncResult) :
    sync_decisions c db mu (d :: rest) s r =
      (match upsert_decision c s db d mu with
       | (Except.ok u, s1) =>
         if u.action == "created" then
           sync_decisions c db mu rest s1 { r with created_decisions := r.created_decisions + 1 }
         else
           sync_decisions c db mu rest s1 { r with updated_decisions := r.updated_decisions + 1 }
       | (Except.error e, s1) =>
         sync_decisions c db mu rest s1
           { r with errors := r.errors ++ [item_error "Decision" d.title e] }) := rfl

/-- Each processed action item contributes exactly one unit: a created
count, an updated count, or one error entry of the documented shape;
the decision counters are untouched. -/
theorem sync_actions_partition {σ : Type} (c : Client σ) (db : String) (mu : Option String) :
    ∀ (items : List ActionItem) (s : σ) (ca0 cd0 ua0 ud0 : Nat) (es0 : List String),
      ∃ ca ua es,
        (sync_actions c db mu items s ⟨ca0, cd0, ua0, ud0, es0⟩).1 =
          ⟨ca0 + ca, cd0, ua0 + ua, ud0, es0 ++ es⟩ ∧
        ca + ua + es.length = items.length ∧
        ∀ e ∈ es, ∃ t m, t ∈ items.map ActionItem.title ∧ e = item_error "Action" t m := by
  intro items
  induction items with
  | nil =>
    intro s ca0 cd0 ua0 ud0 es0
    exact ⟨0, 0, [], by simp [sync_actions], rfl, by simp⟩
  | cons a rest ih =>
    intro s ca0 cd0 ua0 ud0 es0
    rcases hu : upsert_action_item c s db a mu with ⟨res, s1⟩
    cases res with
    | ok u =>
      rcases hcr : u.action == "created" with _ | _
      · have hred : sync_actions c db mu (a :: rest) s ⟨ca0, cd0, ua0, ud0, es0⟩ =
            sync_actions c db mu rest s1 ⟨ca0, cd0, ua0 + 1, ud0, es0⟩ := by
          rw [sync_actions_cons, hu]
          simp [hcr]
        obtain ⟨ca, ua, es, h1, h2, h3⟩ := ih s1 ca0 cd0 (ua0 + 1) ud0 es0
        refine ⟨ca, 1 + ua, es, ?_, by simp only [List.length_cons]; omega, ?_⟩
        · rw [hred, h1]
          simp [Nat.add_assoc]
        · intro e he
          obtain ⟨t, m, hm1, hm2⟩ := h3 e he
          exact ⟨t, m, by simp [List.map_cons]; right; simpa using hm1, hm2⟩
      · have hred : sync_actions c db mu (a :: rest) s ⟨ca0, cd0, ua0, ud0, es0⟩ =
            sync_actions c db mu rest s1 ⟨ca0 + 1, cd0, ua0, ud0, es0⟩ := by
          rw [sync_actions_cons, hu]
          simp [hcr]
        obtain ⟨ca, ua, es, h1, h2, h3⟩ := ih s1 (ca0 + 1) cd0 ua0 ud0 es0
        refine ⟨1 + ca, ua, es, ?_, by simp only [List.length_cons]; omega, ?_⟩
        · rw [hred, h1]
          simp [Nat.add_assoc]
        · intro e he
          obtain ⟨t, m, hm1, hm2⟩ := h3 e he
          exact ⟨t, m, by simp [List.map_cons]; right; simpa using hm1, hm2⟩
    | error e =>
      have hred : sync_actions c db mu (a :: rest) s ⟨ca0, cd0, ua0, ud0, es0⟩ =
          sync_actions c db mu rest s1 ⟨ca0, cd0, ua0, ud0, es0 ++ [item_error "Action" a.title e]⟩ := by
        rw [sync_actions_cons, hu]
      obtain ⟨ca, ua, es, h1, h2, h3⟩ := ih s1 ca0 cd0 ua0 ud0 (es0 ++ [item_error "Action" a.title e])
      refine ⟨ca, ua, item_error "Action" a.title e :: es, ?_,
        by simp only [List.length_cons]; omega, ?_⟩
      · rw [hred, h1]
        simp
      · intro x hx
        rcases List.mem_cons.mp hx with hx | hx
        · exact ⟨a.title, e, by simp, hx⟩
        · obtain ⟨t, m, hm1, hm2⟩ := h3 x hx
          exact ⟨t, m, by simp [List.map_cons]; right; simpa using hm1, hm2⟩

/-- Each processed decision contributes exactly one unit; the action
counters are untouched. -/
theorem sync_decisions_partition {σ : Type} (c : Client σ) (db : String) (mu : Option String) :
    ∀ (items : List Decision) (s : σ) (ca0 cd0 ua0 ud0 : Nat) (es0 : List String),
      ∃ cd ud es,
        (sync_decisions c db mu items s ⟨ca0, cd0, ua0, ud0, es0⟩).1 =
          ⟨ca0, cd0 + cd, ua0, ud0 + ud, es0 ++ es⟩ ∧
        cd + ud + es.length = items.length ∧
        ∀ e ∈ es, ∃ t m, t ∈ items.map Decision.title ∧ e = item_error "Decision" t m := by
  intro items
  induction items with
  | nil =>
    intro s ca0 cd0 ua0 ud0 es0
    exact ⟨0, 0, [], by simp [sync_decisions], rfl, by simp⟩
  | cons d rest ih =>
    intro s ca0 cd0 ua0 ud0 es0
    rcases hu : upsert_decision c s db d mu with ⟨res, s1⟩
    cases res with
    | ok u =>
      rcases hcr : u.action == "created" with _ | _
      · have hred : sync_decisions c db mu (d :: rest) s ⟨ca0, cd0, ua0, ud0, es0⟩ =
            sync_decisions c db mu rest s1 ⟨ca0, cd0, ua0, ud0 + 1, es0⟩ := by
          rw [sync_decisions_cons, hu]
          simp [hcr]
        obtain ⟨cd, ud, es, h1, h2, h3⟩ := ih s1 ca0 cd0 ua0 (ud0 + 1) es0
        refine ⟨cd, 1 + ud, es, ?_, by simp only [List.length_cons]; omega, ?_⟩
        · rw [hred, h1]
          simp [Nat.add_assoc]
        · intro e he
          obtain ⟨t, m, hm1, hm2⟩ := h3 e he
          exact ⟨t, m, by simp [List.map_cons]; right; simpa using hm1, hm2⟩
      · have hred : sync_decisions c db mu (d :: rest) s ⟨ca0, cd0, ua0, ud0, es0⟩ =
            sync_decisions c db mu rest s1 ⟨ca0, cd0 + 1, ua0, ud0, es0⟩ := by
          rw [sync_decisions_cons, hu]
          simp [hcr]
        obtain ⟨cd, ud, es, h1, h2, h3⟩ := ih s1 ca0 (cd0 + 1) ua0 ud0 es0
        refine ⟨1 + cd, ud, es, ?_, by simp only [List.length_cons]; omega, ?_⟩
        · rw [hred, h1]
          simp [Nat.add_assoc]
        · intro e he
          obtain ⟨t, m, hm1, hm2⟩ := h3 e he
          exact ⟨t, m, by simp [List.map_cons]; right; simpa using hm1, hm2⟩
    | error e =>
      have hred : sync_decisions c db mu (d :: rest) s ⟨ca0, cd0, ua0, ud0, es0⟩ =
          sync_decisions c db mu rest s1 ⟨ca0, cd0, ua0, ud0, es0 ++ [item_error "Decision" d.title e]⟩ := by
        rw [sync_decisions_cons, hu]
      obtain ⟨cd, ud, es, h1, h2, h3⟩ := ih s1 ca0 cd0 ua0 ud0 (es0 ++ [item_error "Decision" d.title e])
      refine ⟨cd, ud, item_error "Decision" d.title e :: es, ?_,
        by simp only [List.length_cons]; omega, ?_⟩
      · rw [hred, h1]
        simp
      · intro x hx
        rcases List.mem_cons.mp hx with hx | hx
        · exact ⟨d.title, e, by simp, hx⟩
        · obtain ⟨t, m, hm1, hm2⟩ := h3 x hx
          exact ⟨t, m, by simp [List.map_cons]; right; simpa using hm1, hm2⟩

/-- C3: whenever `sync_to_notion` returns a result, every submitted
item is accounted for exactly once — as a created count, an updated
count, or a single error entry of the shape "Kind 'title': message"
with the title of a submitted item — so created + updated per category
is at most the number of items submitted, and no item is skipped. -/
theorem c3_sync_result_partitions_items {σ : Type} (c : Client σ) (env : Env) (s : σ)
    (payload : AnalysisPayload) (mu : Option String) (r : SyncResult) (s2 : σ)
    (h : sync_to_notion env c s payload mu = (Except.ok r, s2)) :
    ∃ analysis ea ed,
      parse_analysis payload = Except.ok analysis ∧
      r.created_actions + r.updated_actions + ea = analysis.actions.length ∧
      r.created_decisions + r.updated_decisions + ed = analysis.decisions.length ∧
      r.errors.length = ea + ed ∧
      ∀ e ∈ r.errors,
        (∃ t m, t ∈ analysis.actions.map ActionItem.title ∧ e = item_error "Action" t m) ∨
        (∃ t m, t ∈ analysis.decisions.map Decision.title ∧ e = item_error "Decision" t m) := by
  by_cases htk : env_missing env.notion_token
  · exfalso
    have hbad : sync_to_notion env c s payload mu =
        (Except.error "NOTION_TOKEN environment variable is required", s) := by
      unfold sync_to_notion init_notion
      simp [htk]
    rw [hbad] at h
    simp at h
  · by_cases hdb : (env_missing env.notion_backlog_db || env_missing env.notion_decisions_db) = true
    · exfalso
      have hbad : sync_to_notion env c s payload mu =
          (Except.error
            "NOTION_BACKLOG_DB and NOTION_DECISIONS_DB environment variables are required", s) := by
        unfold sync_to_notion init_notion
        simp [htk, hdb]
      rw [hbad] at h
      simp at h
    · rcases hp : parse_analysis payload with e | analysis
      · exfalso
        have hbad : sync_to_notion env c s payload mu = (Except.error e, s) := by
          unfold sync_to_notion init_notion
          simp [htk, hdb, hp]
        rw [hbad] at h
        simp at h
      · have hval : sync_to_notion env c s payload mu =
            (Except.ok (sync_decisions c (env.notion_decisions_db.getD "") mu analysis.decisions
                (sync_actions c (env.notion_backlog_db.getD "") mu analysis.actions s zeroResult).2
                (sync_actions c (env.notion_backlog_db.getD "") mu analysis.actions s zeroResult).1).1,
             (sync_decisions c (env.notion_decisions_db.getD "") mu analysis.decisions
                (sync_actions c (env.notion_backlog_db.getD "") mu analysis.actions s zeroResult).2
                (sync_actions c (env.notion_backlog_db.getD "") mu analysis.actions s zeroResult).1).2) := by
          unfold sync_to_notion init_notion
          simp [htk, hdb, hp]
        rw [hval] at h
        simp only [Prod.mk.injEq, Except.ok.injEq] at h
        obtain ⟨hr, hs⟩ := h
        obtain ⟨ca, ua, esa, ha1, ha2, ha3⟩ :=
          sync_actions_partition c (env.notion_backlog_db.getD "") mu analysis.actions s 0 0 0 0 []
        have ha1z : (sync_actions c (env.notion_backlog_db.getD "") mu analysis.actions s
            zeroResult).1 = ⟨0 + ca, 0, 0 + ua, 0, [] ++ esa⟩ := ha1
        obtain ⟨cd, ud, esd, hd1, hd2, hd3⟩ :=
          sync_decisions_partition c (env.notion_decisions_db.getD "") mu analysis.decisions
            (sync_actions c (env.notion_backlog_db.getD "") mu analysis.actions s zeroResult).2
            (0 + ca) 0 (0 + ua) 0 ([] ++ esa)
        rw [ha1z, hd1] at hr
        refine ⟨analysis, esa.length, esd.length, rfl, ?_, ?_, ?_, ?_⟩
        · rw [← hr]
          simp
          omega
        · rw [← hr]
          simp
          omega
        · rw [← hr]
          simp
        · intro e he
          rw [← hr] at he
          simp at he
          rcases he with he | he
          · exact Or.inl (ha3 e he)
          · exact Or.inr (hd3 e he)

/-- C3 witness: a concrete successful run (one action created, one
decision created, no errors) satisfies the partition equations. -/
theorem c3_sync_result_partitions_items_witness :
    sync_to_notion envOK trivial_client () payload1 none = (Except.ok ⟨1, 1, 0, 0, []⟩, ()) ∧
    ∃ analysis ea ed,
      parse_analysis payload1 = Except.ok analysis ∧
      (⟨1, 1, 0, 0, []⟩ : SyncResult).created_actions +
          (⟨1, 1, 0, 0, []⟩ : SyncResult).updated_actions + ea = analysis.actions.length ∧
      (⟨1, 1, 0, 0, []⟩ : SyncResult).created_decisions +
          (⟨1, 1, 0, 0, []⟩ : SyncResult).updated_decisions + ed = analysis.decisions.length ∧
      (⟨1, 1, 0, 0, []⟩ : SyncResult).errors.length = ea + ed ∧
      ∀ e ∈ (⟨1, 1, 0, 0, []⟩ : SyncResult).errors,
        (∃ t m, t ∈ analysis.actions.map ActionItem.title ∧ e = item_error "Action" t m) ∨
        (∃ t m, t ∈ analysis.decisions.map Decision.title ∧ e = item_error "Decision" t m) :=
  ⟨rfl, c3_sync_result_partitions_items trivial_client envOK () payload1 none
    ⟨1, 1, 0, 0, []⟩ () rfl⟩

/-! #### Accumulator lemmas for stateless clients (for C8) -/

/-- Adding the empty result on the right is the identity. -/
theorem combine_zero_right (r : SyncResult) : combine r zeroResult = r := by
  cases r
  simp [combine, zeroResult]

/-- Against a stateless client, the action loop only ever adds a fixed
delta (depending on the items alone) to the incoming accumulator. -/
theorem sync_actions_unit_shift (c : Client Unit) (db : String) (mu : Option String) :
    ∀ (items : List ActionItem) (u : Unit) (r0 : SyncResult),
      (sync_actions c db mu items u r0).1 =
        combine r0 (sync_actions c db mu items u zeroResult).1 := by
  intro items
  induction items with
  | nil =>
    intro u r0
    simp [sync_actions, combine_zero_right]
  | cons a rest ih =>
    intro u r0
    rcases hu : upsert_action_item c u db a mu with ⟨res, s1⟩
    cases res with
    | ok v =>
      rcases hcr : v.action == "created" with _ | _
      · have hL : (sync_actions c db mu (a :: rest) u r0).1 =
            (sync_actions c db mu rest s1 { r0 with updated_actions := r0.updated_actions + 1 }).1 := by
          rw [sync_actions_cons, hu]
          simp [hcr]
        have hR : (sync_actions c db mu (a :: rest) u zeroResult).1 =
            (sync_actions c db mu rest s1 ⟨0, 0, 1, 0, []⟩).1 := by
          rw [sync_actions_cons, hu]
          simp [hcr, zeroResult]
        rw [hL, hR, ih s1, ih s1 ⟨0, 0, 1, 0, []⟩]
        cases r0
        simp [combine, Nat.add_assoc]
      · have hL : (sync_actions c db mu (a :: rest) u r0).1 =
            (sync_actions c db mu rest s1 { r0 with created_actions := r0.created_actions + 1 }).1 := by
          rw [sync_actions_cons, hu]
          simp [hcr]
        have hR : (sync_actions c db mu (a :: rest) u zeroResult).1 =
            (sync_actions c db mu rest s1 ⟨1, 0, 0, 0, []⟩).1 := by
          rw [sync_actions_cons, hu]
          simp [hcr, zeroResult]
        rw [hL, hR, ih s1, ih s1 ⟨1, 0, 0, 0, []⟩]
        cases r0
        simp [combine, Nat.add_assoc]
    | error e =>
      have hL : (sync_actions c db mu (a :: rest) u r0).1 =
          (sync_actions c db mu rest s1
            { r0 with errors := r0.errors ++ [item_error "Action" a.title e] }).1 := by
        rw [sync_actions_cons, hu]
      have hR : (sync_actions c db mu (a :: rest) u zeroResult).1 =
          (sync_actions c db mu rest s1 ⟨0, 0, 0, 0, [item_error "Action" a.title e]⟩).1 := by
        rw [sync_actions_cons, hu]
        rfl
      rw [hL, hR, ih s1, ih s1 ⟨0, 0, 0, 0, [item_error "Action" a.title e]⟩]
      cases r0
      simp [combine]
  
/-- Against a stateless client, the decision loop only ever adds a
fixed delta to the incoming accumulator. -/
theorem sync_decisions_unit_shift (c : Client Unit) (db : String) (mu : Option String) :
    ∀ (items : List Decision) (u : Unit) (r0 : SyncResult),
      (sync_decisions c db mu items u r0).1 =
        combine r0 (sync_decisions c db mu items u zeroResult).1 := by
  intro items
  induction items with
  | nil =>
    intro u r0
    simp [sync_decisions, combine_zero_right]
  | cons d rest ih =>
    intro u r0
    rcases hu : upsert_decision c u db d mu with ⟨res, s1⟩
    cases res with
    | ok v =>
      rcases hcr : v.action == "created" with _ | _
      · have hL : (sync_decisions c db mu (d :: rest) u r0).1 =
            (sync_decisions c db mu rest s1 { r0 with updated_decisions := r0.updated_decisions + 1 }).1 := by
          rw [sync_decisions_cons, hu]
          simp [hcr]
        have hR : (sync_decisions c db mu (d :: rest) u zeroResult).1 =
            (sync_decisions c db mu rest s1 ⟨0, 0, 0, 1, []⟩).1 := by
          rw [sync_decisions_cons, hu]
          simp [hcr, zeroResult]
        rw [hL, hR, ih s1, ih s1 ⟨0, 0, 0, 1, []⟩]
        cases r0
        simp [combine, Nat.add_assoc]
      · have hL : (sync_decisions c db mu (d :: rest) u r0).1 =
            (sync_decisions c db mu rest s1 { r0 with created_decisions := r0.created_decisions + 1 }).1 := by
          rw [sync_decisions_cons, hu]
          simp [hcr]
        have hR : (sync_decisions c db mu (d :: rest) u zeroResult).1 =
            (sync_decisions c db mu rest s1 ⟨0, 1, 0, 0, []⟩).1 := by
          rw [sync_decisions_cons, hu]
          simp [hcr, zeroResult]
        rw [hL, hR, ih s1, ih s1 ⟨0, 1, 0, 0, []⟩]
        cases r0
        simp [combine, Nat.add_assoc]
    | error e =>
      have hL : (sync_decisions c db mu (d :: rest) u r0).1 =
          (sync_decisions c db mu rest s1
            { r0 with errors := r0.errors ++ [item_error "Decision" d.title e] }).1 := by
        rw [sync_decisions_cons, hu]
      have hR : (sync_decisions c db mu (d :: rest) u zeroResult).1 =
          (sync_decisions c db mu rest s1 ⟨0, 0, 0, 0, [item_error "Decision" d.title e]⟩).1 := by
        rw [sync_decisions_cons, hu]
        rfl
      rw [hL, hR, ih s1, ih s1 ⟨0, 0, 0, 0, [item_error "Decision" d.title e]⟩]
      cases r0
      simp [combine]

/-- C8: against a remote behavior that does not depend on call order
(a pure client), running all decisions before all actions yields the
same four counters as the implemented actions-first order, and an error
list that is a permutation of the implemented one. -/
theorem c8_order_independence (pc : PureClient) (env : Env) (payload : AnalysisPayload)
    (mu : Option String) (r : SyncResult)
    (h : sync_to_notion env pc.lift () payload mu = (Except.ok r, ())) :
    ∃ r2, sync_to_notion_decisions_first env pc.lift () payload mu = (Except.ok r2, ()) ∧
      r2.created_actions = r.created_actions ∧
      r2.created_decisions = r.created_decisions ∧
      r2.updated_actions = r.updated_actions ∧
      r2.updated_decisions = r.updated_decisions ∧
      List.Perm r.errors r2.errors := by
  by_cases htk : env_missing env.notion_token
  · exfalso
    have hbad : sync_to_notion env pc.lift () payload mu =
        (Except.error "NOTION_TOKEN environment variable is required", ()) := by
      unfold sync_to_notion init_notion
      simp [htk]
    rw [hbad] at h
    simp at h
  · by_cases hdb : (env_missing env.notion_backlog_db || env_missing env.notion_decisions_db) = true
    · exfalso
      have hbad : sync_to_notion env pc.lift () payload mu =
          (Except.error
            "NOTION_BACKLOG_DB and NOTION_DECISIONS_DB environment variables are required", ()) := by
        unfold sync_to_notion init_notion
        simp [htk, hdb]
      rw [hbad] at h
      simp at h
    · rcases hp : parse_analysis payload with e | analysis
      · exfalso
        have hbad : sync_to_notion env pc.lift () payload mu = (Except.error e, ()) := by
          unfold sync_to_notion init_notion
          simp [htk, hdb, hp]
        rw [hbad] at h
        simp at h
      · have hval : sync_to_notion env pc.lift () payload mu =
            (Except.ok (sync_decisions pc.lift (env.notion_decisions_db.getD "") mu
                analysis.decisions ()
                (sync_actions pc.lift (env.notion_backlog_db.getD "") mu analysis.actions ()
                  zeroResult).1).1, ()) := by
          unfold sync_to_notion init_notion
          simp [htk, hdb, hp]
        have hval2 : sync_to_notion_decisions_first env pc.lift () payload mu =
            (Except.ok (sync_actions pc.lift (env.notion_backlog_db.getD "") mu
                analysis.actions ()
                (sync_decisions pc.lift (env.notion_decisions_db.getD "") mu analysis.decisions ()
                  zeroResult).1).1, ()) := by
          unfold sync_to_notion_decisions_first init_notion
          simp [htk, hdb, hp]
        rw [hval] at h
        simp only [Prod.mk.injEq, Except.ok.injEq] at h
        have hr : r = (sync_decisions pc.lift (env.notion_decisions_db.getD "") mu
            analysis.decisions ()
            (sync_actions pc.lift (env.notion_backlog_db.getD "") mu analysis.actions ()
              zeroResult).1).1 := h.1.symm
        have hda := sync_actions_unit_shift pc.lift (env.notion_backlog_db.getD "") mu
          analysis.actions ()
        have hdd := sync_decisions_unit_shift pc.lift (env.notion_decisions_db.getD "") mu
          analysis.decisions ()
        have hrsum : r = combine
            (sync_actions pc.lift (env.notion_backlog_db.getD "") mu analysis.actions ()
              zeroResult).1
            (sync_decisions pc.lift (env.notion_decisions_db.getD "") mu analysis.decisions ()
              zeroResult).1 := by
          rw [hr, hdd]
        refine ⟨(sync_actions pc.lift (env.notion_backlog_db.getD "") mu analysis.actions ()
            (sync_decisions pc.lift (env.notion_decisions_db.getD "") mu analysis.decisions ()
              zeroResult).1).1, hval2, ?_⟩
        have hr2sum : (sync_actions pc.lift (env.notion_backlog_db.getD "") mu analysis.actions ()
            (sync_decisions pc.lift (env.notion_decisions_db.getD "") mu analysis.decisions ()
              zeroResult).1).1 = combine
            (sync_decisions pc.lift (env.notion_decisions_db.getD "") mu analysis.decisions ()
              zeroResult).1
            (sync_actions pc.lift (env.notion_backlog_db.getD "") mu analysis.actions ()
              zeroResult).1 := by
          rw [hda]
        rw [hrsum, hr2sum]
        refine ⟨?_, ?_, ?_, ?_, ?_⟩
        · simp [combine, Nat.add_comm]
        · simp [combine, Nat.add_comm]
        · simp [combine, Nat.add_comm]
        · simp [combine, Nat.add_comm]
        · exact List.perm_append_comm

/-- C8 witness: a concrete successful actions-first run against a pure
client has a decisions-first counterpart with identical counters. -/
theorem c8_order_independence_witness :
    sync_to_notion envOK pure_trivial.lift () payload1 none = (Except.ok ⟨1, 1, 0, 0, []⟩, ()) ∧
    ∃ r2, sync_to_notion_decisions_first envOK pure_trivial.lift () payload1 none =
        (Except.ok r2, ()) ∧
      r2.created_actions = (⟨1, 1, 0, 0, []⟩ : SyncResult).created_actions ∧
      r2.created_decisions = (⟨1, 1, 0, 0, []⟩ : SyncResult).created_decisions ∧
      r2.updated_actions = (⟨1, 1, 0, 0, []⟩ : SyncResult).updated_actions ∧
      r2.updated_decisions = (⟨1, 1, 0, 0, []⟩ : SyncResult).updated_decisions ∧
      List.Perm (⟨1, 1, 0, 0, []⟩ : SyncResult).errors r2.errors :=
  ⟨rfl, c8_order_independence pure_trivial envOK payload1 none ⟨1, 1, 0, 0, []⟩ rfl⟩
